import Mathlib

/-!
Verification of the Airbnb wishlist content-script extractor (`content.js`).

The development shallowly embeds the extraction pipeline of the content
script: the Card Locator (`findListingCards`), the seven field extractors
(`extractPropertyName`, `extractRating`, `extractDate`, `extractBedInfo`,
`extractPrice`, `extractLink`, `extractComment`), the Similarity Matcher
(`areStringSimilar`) and the Listing Assembler
(`extractAndSendListingData`).  JavaScript strings are modelled as Lean
`String`s (all string primitives the script uses are re-implemented over
`List Char` so that every definition evaluates by `rfl`/`decide`), and the
rendered DOM is modelled as a tree of elements carrying tag name, class
attribute, other attributes, text content, child list and
`nextElementSibling`.  The floating-point comparison
`matches / maxLen >= 0.8` of the source is modelled by the exact rational
comparison `5 * matches >= 4 * maxLen`; for the short strings the script
compares the two comparisons agree.
-/

namespace AWL

/-! ## JavaScript string primitives -/

/-- `listContains needle hay` models JavaScript `hay.includes(needle)`:
`needle` occurs as a contiguous substring of `hay`. -/
def listContains (needle : List Char) : List Char → Bool
  | [] => needle.isPrefixOf []
  | c :: rest => needle.isPrefixOf (c :: rest) || listContains needle rest

/-- `strContains hay needle` models JavaScript `hay.includes(needle)`. -/
def strContains (hay needle : String) : Bool :=
  listContains needle.data hay.data

/-- Drop leading and trailing whitespace from a character list. -/
def trimChars (l : List Char) : List Char :=
  ((l.dropWhile Char.isWhitespace).reverse.dropWhile Char.isWhitespace).reverse

/-- Models JavaScript `s.trim()`. -/
def jsTrim (s : String) : String :=
  String.mk (trimChars s.data)

/-- Models JavaScript `s.length`. -/
def jsLength (s : String) : Nat :=
  s.data.length

/-- Models JavaScript `Math.abs(a - b)` for the two string lengths. -/
def absDiff (a b : Nat) : Nat :=
  max a b - min a b

/-- The matching-character count of `areStringSimilar`: the loop
`for (i = 0; i < min(len1, len2); i++) if (str1[i] === str2[i]) matches++`. -/
def countMatchingChars : List Char → List Char → Nat
  | a :: as, b :: bs => (if a == b then 1 else 0) + countMatchingChars as bs
  | _, _ => 0

/-- Accumulator worker for `classTokens`. -/
def classTokensAux (cur : List Char) : List Char → List (List Char)
  | [] => if cur.isEmpty then [] else [cur.reverse]
  | c :: rest =>
    if c.isWhitespace then
      if cur.isEmpty then classTokensAux [] rest
      else cur.reverse :: classTokensAux [] rest
    else classTokensAux (c :: cur) rest

/-- The whitespace-separated tokens of a `class` attribute value, modelling
the DOM `classList`. -/
def classTokens (l : List Char) : List (List Char) :=
  classTokensAux [] l

/-- Case-insensitive character-list prefix test (ASCII case folding via
`Char.toLower`), used to model the `/Bearbeiten/i` regex. -/
def ciIsPrefixOf : List Char → List Char → Bool
  | [], _ => true
  | _ :: _, [] => false
  | a :: as, b :: bs => (a.toLower == b.toLower) && ciIsPrefixOf as bs

/-- Models JavaScript `s.replace(/needle/i, "")`: remove the first
case-insensitive occurrence of `needle`, if any. -/
def removeFirstCI (needle : List Char) : List Char → List Char
  | [] => []
  | c :: rest =>
    if ciIsPrefixOf needle (c :: rest) then (c :: rest).drop needle.length
    else c :: removeFirstCI needle rest

/-- Models the JavaScript regex match `href.match(/\/rooms\/(\d+)/)`:
scan left to right for the first occurrence of the literal `/rooms/`
followed immediately by at least one decimal digit, and return the maximal
digit run (the capture group); `none` when the pattern never matches. -/
def roomsIdMatch : List Char → Option (List Char)
  | [] => none
  | c :: rest =>
    if ("/rooms/".data).isPrefixOf (c :: rest) then
      if (((c :: rest).drop 7).takeWhile Char.isDigit).isEmpty then roomsIdMatch rest
      else some (((c :: rest).drop 7).takeWhile Char.isDigit)
    else roomsIdMatch rest

/-- Models the JavaScript regex match `text.match(/(\d+[.,]\d+)/)`: the
first maximal digit run followed by `.` or `,` and at least one digit,
with the trailing digit run taken maximally. -/
def ratingScan : List Char → Option (List Char)
  | [] => none
  | c :: rest =>
    if c.isDigit then
      let ds := (c :: rest).takeWhile Char.isDigit
      match (c :: rest).dropWhile Char.isDigit with
      | sep :: a2 =>
        if (sep == '.' || sep == ',') &&
            (match a2 with | d :: _ => d.isDigit | [] => false) then
          some (ds ++ sep :: a2.takeWhile Char.isDigit)
        else ratingScan rest
      | [] => ratingScan rest
    else ratingScan rest

/-- Models `t.replace(/^LABEL\s*/, "")`: when `t` starts with `label`,
drop the label and any whitespace directly after it; otherwise `t`. -/
def stripLabel (label : String) (t : String) : String :=
  if label.data.isPrefixOf t.data then
    String.mk ((t.data.drop label.data.length).dropWhile Char.isWhitespace)
  else t

/-! ## DOM model

A rendered element carries its tag name, raw `class` attribute value, the
other attributes, its `textContent`, its element children (in document
order) and its `nextElementSibling`.  The three types are a mutual block
(instead of nesting `List`/`Option`) so that every traversal below is
compiled by structural recursion and evaluates by `rfl`/`decide`. -/

mutual
inductive Elem : Type where
  | mk (tag : String) (className : String) (attrs : List (String × String))
      (textContent : String) (children : ElemList) (nextSibling : ElemOpt)
inductive ElemList : Type where
  | nil
  | cons (head : Elem) (tail : ElemList)
inductive ElemOpt : Type where
  | noElem
  | someElem (e : Elem)
end

/-- Build an `ElemList` from a Lean list (used to write concrete pages). -/
def listToElemList : List Elem → ElemList
  | [] => .nil
  | e :: rest => .cons e (listToElemList rest)

/-- Convert an `ElemList` back to a Lean list. -/
def ElemList.toList : ElemList → List Elem
  | .nil => []
  | .cons e rest => e :: rest.toList

def Elem.tag : Elem → String
  | .mk t _ _ _ _ _ => t

def Elem.className : Elem → String
  | .mk _ c _ _ _ _ => c

def Elem.attrs : Elem → List (String × String)
  | .mk _ _ a _ _ _ => a

def Elem.textContent : Elem → String
  | .mk _ _ _ x _ _ => x

def Elem.children : Elem → ElemList
  | .mk _ _ _ _ cs _ => cs

/-- `nextElementSibling`, as an option. -/
def Elem.nextSibling : Elem → Option Elem
  | .mk _ _ _ _ _ .noElem => none
  | .mk _ _ _ _ _ (.someElem e) => some e

/-- `getAttribute(n)`: the value of attribute `n`, if present. -/
def Elem.getAttr (e : Elem) (n : String) : Option String :=
  (e.attrs.find? (fun p => p.1 == n)).map (fun p => p.2)

/-- CSS `[n="v"]`: attribute `n` present with exactly value `v`. -/
def Elem.attrEq (e : Elem) (n v : String) : Bool :=
  match e.getAttr n with
  | some w => w == v
  | none => false

/-- CSS `[n*="v"]`: attribute `n` present and containing `v`. -/
def Elem.attrContainsVal (e : Elem) (n v : String) : Bool :=
  match e.getAttr n with
  | some w => strContains w v
  | none => false

/-- `classList.contains(c)`: `c` is one of the whitespace-separated tokens
of the `class` attribute. -/
def Elem.hasClass (e : Elem) (c : String) : Bool :=
  (classTokens e.className.data).any (fun t => t == c.data)

mutual
/-- Pre-order (document-order) listing of an element and all elements of
its subtree. -/
def elemDesc : Elem → List Elem
  | .mk t c a x cs s => .mk t c a x cs s :: elemListF cs
/-- Pre-order listing of all elements of a forest. -/
def elemListF : ElemList → List Elem
  | .nil => []
  | .cons e rest => elemDesc e ++ elemListF rest
end

/-- `card.querySelectorAll(sel)` for a simple (combinator-free) selector
modelled by the predicate `p`: the strict descendants of `card` matching
`p`, in document order. -/
def Elem.qsa (card : Elem) (p : Elem → Bool) : List Elem :=
  (elemListF card.children).filter p

/-- `card.querySelector(sel)`: first match, if any. -/
def Elem.qs (card : Elem) (p : Elem → Bool) : Option Elem :=
  (card.qsa p).head?

/-- `document.querySelectorAll(sel)`: all elements of the page (the root
included) matching `p`, in document order. -/
def docQsa (doc : Elem) (p : Elem → Bool) : List Elem :=
  (elemDesc doc).filter p

/-- `document.querySelector(sel)`: first match on the page, if any. -/
def docQs (doc : Elem) (p : Elem → Bool) : Option Elem :=
  (docQsa doc p).head?

mutual
/-- Traversal for the descendant selector
`'[data-testid="listing-card-subtitle"] span, .t6mzqp7'` of
`extractPropertyName`: `inSubtitle` records whether an ancestor matched
`[data-testid="listing-card-subtitle"]`. -/
def titleScanElem (inSubtitle : Bool) : Elem → List Elem
  | .mk t c a x cs s =>
    (if Elem.hasClass (.mk t c a x cs s) "t6mzqp7" || (t == "span" && inSubtitle)
      then [Elem.mk t c a x cs s] else []) ++
    titleScanList
      (inSubtitle || Elem.attrEq (.mk t c a x cs s) "data-testid" "listing-card-subtitle") cs
/-- Forest version of `titleScanElem`. -/
def titleScanList (inSubtitle : Bool) : ElemList → List Elem
  | .nil => []
  | .cons e rest => titleScanElem inSubtitle e ++ titleScanList inSubtitle rest
end

/-! ## Card Locator (`findListingCards`) -/

/-- Selector `'[data-testid="card-container"]'`. -/
def selCardContainer (e : Elem) : Bool :=
  e.attrEq "data-testid" "card-container"

/-- Selector `'.cy5jw6o[role="group"]'`. -/
def selCyGroup (e : Elem) : Bool :=
  e.hasClass "cy5jw6o" && e.attrEq "role" "group"

/-- Selector `'.wishlist-card'`. -/
def selWishlistCardDash (e : Elem) : Bool :=
  e.hasClass "wishlist-card"

/-- Selector `'.wishlistCard'`. -/
def selWishlistCardCamel (e : Elem) : Bool :=
  e.hasClass "wishlistCard"

/-- Selector `'div[role="group"]'`. -/
def selDivGroup (e : Elem) : Bool :=
  e.tag == "div" && e.attrEq "role" "group"

/-- The fixed, ordered selector list of `findListingCards`. -/
def cardSelectors : List (Elem → Bool) :=
  [selCardContainer, selCyGroup, selWishlistCardDash, selWishlistCardCamel, selDivGroup]

/-- The `for (const selector of selectors) { ...; break; }` loop of
`findListingCards`: try each selector in order and return the matches of
the first one that finds any elements. -/
def findListingCardsLoop (doc : Elem) : List (Elem → Bool) → List Elem
  | [] => []
  | sel :: rest =>
    let elements := docQsa doc sel
    if elements.length > 0 then elements else findListingCardsLoop doc rest

/-- `findListingCards` of `content.js`. -/
def findListingCards (doc : Elem) : List Elem :=
  findListingCardsLoop doc cardSelectors

/-! ## Field extractors -/

/-- Selector `'[data-testid="listing-card-title"]'`. -/
def selCardTitle (e : Elem) : Bool :=
  e.attrEq "data-testid" "listing-card-title"

/-- `extractPropertyName` of `content.js`. -/
def extractPropertyName (card : Elem) : String :=
  match (titleScanList (card.attrEq "data-testid" "listing-card-subtitle") card.children).head? with
  | some titleElement => jsTrim titleElement.textContent
  | none =>
    match (card.qsa selCardTitle).head? with
    | some el => jsTrim el.textContent
    | none => ""

/-- Selector `".r4a59j5, [data-testid*='rating']"`. -/
def selRating (e : Elem) : Bool :=
  e.hasClass "r4a59j5" || e.attrContainsVal "data-testid" "rating"

/-- `extractRating` of `content.js`. -/
def extractRating (card : Elem) : String :=
  match card.qs selRating with
  | some ratingContainer =>
    match ratingScan (jsTrim ratingContainer.textContent).data with
    | some m => String.mk m
    | none => ""
  | none => ""

/-- Selector `"button.c12tvzjc"`. -/
def selDateButton (e : Elem) : Bool :=
  e.tag == "button" && e.hasClass "c12tvzjc"

/-- `extractDate` of `content.js`.  The source queries the global
`document` (not its `card` argument) for `button.c12tvzjc`, so the model
takes the page `doc` explicitly and leaves `card` unused, exactly as the
source leaves its parameter unused. -/
def extractDate (doc : Elem) (card : Elem) : String :=
  match docQs doc selDateButton with
  | some dateButton => jsTrim dateButton.textContent
  | none => ""

/-- `areStringSimilar` of `content.js`.  The float test
`matches / maxLen >= 0.8` is modelled exactly as `5 * matches >= 4 * maxLen`. -/
def areStringSimilar (str1 str2 : String) : Bool :=
  if strContains str1 str2 || strContains str2 str1 then true
  else if absDiff (jsLength str1) (jsLength str2) > 3 then false
  else decide (4 * max (jsLength str1) (jsLength str2) ≤
                5 * countMatchingChars str1.data str2.data)

/-- The duplicate-text heuristic inlined in `extractBedInfo`: on
even-length text, split in the middle, trim both halves, and keep the
trimmed first half when the trimmed halves are identical or similar;
otherwise (and on odd length) keep the full text. -/
def dedupeBedText (fullText : String) : String :=
  if jsLength fullText % 2 == 0 then
    let halfLength := jsLength fullText / 2
    let firstHalf := jsTrim (String.mk (fullText.data.take halfLength))
    let secondHalf := jsTrim (String.mk (fullText.data.drop halfLength))
    if firstHalf == secondHalf || areStringSimilar firstHalf secondHalf then firstHalf
    else fullText
  else fullText

/-- Selector `".g1qv1ctd"`. -/
def selDetails (e : Elem) : Bool :=
  e.hasClass "g1qv1ctd"

/-- Selector `":scope > div:not([aria-hidden='true'])"` (applied to the
direct children). -/
def selBedChild (e : Elem) : Bool :=
  e.tag == "div" && !(e.attrEq "aria-hidden" "true")

/-- `extractBedInfo` of `content.js`: text of the third non-hidden direct
`div` child of the `.g1qv1ctd` container, run through the duplicate-text
heuristic; `""` when the container or the third child is missing. -/
def extractBedInfo (card : Elem) : String :=
  match card.qs selDetails with
  | some detailsContainer =>
    let divChildren := detailsContainer.children.toList.filter selBedChild
    match divChildren.drop 2 with
    | potentialBedDiv :: _ => dedupeBedText (jsTrim potentialBedDiv.textContent)
    | [] => ""
  | none => ""

/-- Selector `"._tt122m, [class*='price'], [class*='total']"`. -/
def selPrice (e : Elem) : Bool :=
  e.hasClass "_tt122m" || strContains e.className "price" || strContains e.className "total"

/-- Selector `"div, span"`. -/
def selDivSpan (e : Elem) : Bool :=
  e.tag == "div" || e.tag == "span"

/-- `extractPrice` of `content.js`: trimmed text of the first
price-selector match with the `Gesamtpreis:`/`Insgesamt` label regexes
stripped in order; otherwise the trimmed text of the first `div`/`span`
descendant whose text contains `€` or `$`; otherwise `""`. -/
def extractPrice (card : Elem) : String :=
  match card.qs selPrice with
  | some totalPriceElement =>
    stripLabel "Insgesamt" (stripLabel "Gesamtpreis:" (jsTrim totalPriceElement.textContent))
  | none =>
    match (card.qsa selDivSpan).find?
        (fun el => el.textContent != "" &&
          (strContains el.textContent "€" || strContains el.textContent "$")) with
    | some el => jsTrim el.textContent
    | none => ""

/-- Selector `'a[href*="/rooms/"]'`. -/
def selRoomsAnchor (e : Elem) : Bool :=
  e.tag == "a" && e.attrContainsVal "href" "/rooms/"

/-- `extractLink` of `content.js`: from the first `/rooms/` anchor, either
the canonical `https://www.airbnb.com/rooms/<id>` URL when the href
matches `/\/rooms\/(\d+)/`, or `https://www.airbnb.com` plus
`href.split("?")[0]`; `""` without such an anchor. -/
def extractLink (card : Elem) : String :=
  match card.qs selRoomsAnchor with
  | some linkElement =>
    match linkElement.getAttr "href" with
    | some href =>
      if href != "" then
        match roomsIdMatch href.data with
        | some ds => "https://www.airbnb.com/rooms/" ++ String.mk ds
        | none => "https://www.airbnb.com" ++ String.mk (href.data.takeWhile (fun ch => ch != '?'))
      else ""
    | none => ""
  | none => ""

/-- Selector `"div.nzkbe2g"`. -/
def selCommentDiv (e : Elem) : Bool :=
  e.tag == "div" && e.hasClass "nzkbe2g"

/-- The sibling-lookup part of `extractComment`: only when the element
directly following the card carries class `cpj3fk1`, the text of its
nested `div.nzkbe2g` with the first case-insensitive `Bearbeiten`
removed, trimmed. -/
def commentFromSibling : Option Elem → String
  | some nextElement =>
    if nextElement.hasClass "cpj3fk1" then
      match nextElement.qs selCommentDiv with
      | some commentDiv =>
        jsTrim (String.mk (removeFirstCI "Bearbeiten".data commentDiv.textContent.data))
      | none => ""
    else ""
  | none => ""

/-- `extractComment` of `content.js`.  The function first parses a
`roomId` out of the card's `/rooms/` anchor (bound below exactly as in
the source, and never used afterwards) and then reads the comment from
the card's `nextElementSibling`. -/
def extractComment (card : Elem) : String :=
  match card.qs selRoomsAnchor with
  | some linkElement =>
    match linkElement.getAttr "href" with
    | some href =>
      let roomId := match roomsIdMatch href.data with
        | some ds => String.mk ds
        | none => ""
      commentFromSibling card.nextSibling
    | none => ""
  | none => commentFromSibling card.nextSibling

/-! ## Listing Assembler -/

/-- One scraped listing, field for field the object literal returned by
`extractListingData`. -/
structure ListingRecord where
  propertyName : String
  rating : String
  date : String
  beds : String
  totalPrice : String
  link : String
  comment : String
deriving DecidableEq, Repr

/-- The response object passed to `sendResponse`: success carries `data`
and `wishlistName`, failure carries `error`. -/
structure ExtractionResult where
  success : Bool
  data : Option (List ListingRecord)
  wishlistName : Option String
  error : Option String
deriving DecidableEq, Repr

/-- `extractListingData` of `content.js` (the `index` parameter of the
source is used only for logging and is dropped; the page `doc` is passed
through to `extractDate`, which reads the global `document`). -/
def extractListingData (doc : Elem) (card : Elem) : ListingRecord :=
  { propertyName := extractPropertyName card
    rating := extractRating card
    date := extractDate doc card
    beds := extractBedInfo card
    totalPrice := extractPrice card
    link := extractLink card
    comment := extractComment card }

/-- `handleNoListingsFound` of `content.js`: the failure response it
passes to `sendResponse`. -/
def handleNoListingsFound : ExtractionResult :=
  { success := false
    data := none
    wishlistName := none
    error := some "No listing cards found. Please refresh the page and try again." }

/-- `extractAndSendListingData` of `content.js`, with `sendResponse`
modelled by returning the response object. -/
def extractAndSendListingData (doc : Elem) (wishlistName : String) : ExtractionResult :=
  let listingCards := findListingCards doc
  if listingCards.length == 0 then handleNoListingsFound
  else
    { success := true
      data := some (listingCards.map (extractListingData doc))
      wishlistName := some wishlistName
      error := none }

/-! ## Fault-isolation model

Each of the seven field extractors of `content.js` wraps its whole body
in `try { ... } catch { return ""; }`.  To state that this isolation
never drops a record, the assembler is generalised over arbitrary
possibly-faulting extractor bodies (`Except` models a thrown exception);
the source's own wrapping of each body is `jsTry`. -/

/-- The `try/catch` wrapper of every field extractor: a thrown error
becomes the empty string. -/
def jsTry (body : Except String String) : String :=
  match body with
  | .ok s => s
  | .error _ => ""

/-- Seven arbitrary (possibly faulting) field-extractor bodies. -/
structure FieldExtractors where
  name : Elem → Except String String
  rating : Elem → Except String String
  date : Elem → Except String String
  beds : Elem → Except String String
  price : Elem → Except String String
  link : Elem → Except String String
  comment : Elem → Except String String

/-- `extractListingData` over arbitrary extractor bodies, each one
individually wrapped in its own `try/catch`. -/
def extractListingDataWith (fs : FieldExtractors) (card : Elem) : ListingRecord :=
  { propertyName := jsTry (fs.name card)
    rating := jsTry (fs.rating card)
    date := jsTry (fs.date card)
    beds := jsTry (fs.beds card)
    totalPrice := jsTry (fs.price card)
    link := jsTry (fs.link card)
    comment := jsTry (fs.comment card) }

/-- `extractAndSendListingData` over arbitrary extractor bodies. -/
def extractAndSendListingDataWith (fs : FieldExtractors) (doc : Elem)
    (wishlistName : String) : ExtractionResult :=
  let listingCards := findListingCards doc
  if listingCards.length == 0 then handleNoListingsFound
  else
    { success := true
      data := some (listingCards.map (extractListingDataWith fs))
      wishlistName := some wishlistName
      error := none }

/-- The concrete extractor bodies of `content.js` (none of them can fault
in the total DOM model, so each is an `.ok`). -/
def okExtractors (doc : Elem) : FieldExtractors :=
  { name := fun c => .ok (extractPropertyName c)
    rating := fun c => .ok (extractRating c)
    date := fun c => .ok (extractDate doc c)
    beds := fun c => .ok (extractBedInfo c)
    price := fun c => .ok (extractPrice c)
    link := fun c => .ok (extractLink c)
    comment := fun c => .ok (extractComment c) }

/-! ## Concrete pages and cards used as witnesses -/

/-- Extractor bodies that all throw, exercising the fault-isolation path. -/
def failingExtractors : FieldExtractors :=
  { name := fun _ => .error "boom"
    rating := fun _ => .error "boom"
    date := fun _ => .error "boom"
    beds := fun _ => .error "boom"
    price := fun _ => .error "boom"
    link := fun _ => .error "boom"
    comment := fun _ => .error "boom" }

/-- A price element matched via its `_tt122m` class, German label text. -/
def gesamtEl : Elem := .mk "span" "_tt122m" [] "Gesamtpreis: €540" .nil .noElem

/-- A card whose price element carries the `Gesamtpreis:` label. -/
def gesamtCard : Elem := .mk "div" "" [] "" (listToElemList [gesamtEl]) .noElem

/-- A price element whose text carries the `Total:` label. -/
def totalEl : Elem := .mk "div" "price" [] "Total: €540" .nil .noElem

/-- A card whose price element carries the `Total:` label. -/
def totalCard : Elem := .mk "div" "" [] "" (listToElemList [totalEl]) .noElem

/-- An anchor (not a `div`/`span`) whose text holds the only currency
symbol of its card. -/
def anchorEl : Elem := .mk "a" "" [("href", "/x")] "€50 per night" .nil .noElem

/-- A card with no price-selector match and whose only currency-bearing
descendant is an anchor. -/
def anchorCard : Elem := .mk "div" "" [] "" (listToElemList [anchorEl]) .noElem

/-- An anchor with a numeric `/rooms/` id and a tracking query string. -/
def roomsAnchor : Elem :=
  .mk "a" "" [("href", "/rooms/12345678?source=wishlist")] "" .nil .noElem

/-- A card containing `roomsAnchor`. -/
def roomsCard : Elem := .mk "div" "" [] "" (listToElemList [roomsAnchor]) .noElem

/-- The nested comment-text element of a comment wrapper. -/
def commentInner : Elem := .mk "div" "nzkbe2g" [] "Great view Bearbeiten" .nil .noElem

/-- A comment wrapper (class `cpj3fk1`) following a card. -/
def commentSib : Elem := .mk "div" "cpj3fk1" [] "" (listToElemList [commentInner]) .noElem

/-- A card linking to room 111, followed by `commentSib`. -/
def cardX : Elem :=
  .mk "div" "" [] ""
    (listToElemList [.mk "a" "" [("href", "/rooms/111")] "" .nil .noElem])
    (.someElem commentSib)

/-- A card identical to `cardX` except that its anchor links to room 222. -/
def cardY : Elem :=
  .mk "div" "" [] ""
    (listToElemList [.mk "a" "" [("href", "/rooms/222")] "" .nil .noElem])
    (.someElem commentSib)

/-- A card matched only by the second (fallback) card selector. -/
def demoCard2 : Elem := .mk "div" "cy5jw6o" [("role", "group")] "" .nil .noElem

/-- A page whose only card is `demoCard2`. -/
def demoDoc2 : Elem := .mk "html" "" [] "" (listToElemList [demoCard2]) .noElem

/-- A page with no listing cards at all. -/
def emptyDoc : Elem := .mk "html" "" [] "" .nil .noElem

/-- A date-display button. -/
def dateButton : Elem := .mk "button" "c12tvzjc" [] "Oct 12 - 19" .nil .noElem

/-- A card located by the primary selector. -/
def demoCardA : Elem := .mk "div" "" [("data-testid", "card-container")] "" .nil .noElem

/-- A second card located by the primary selector, different text. -/
def demoCardB : Elem := .mk "div" "" [("data-testid", "card-container")] "B" .nil .noElem

/-- A page with a date button and two cards. -/
def dateDoc : Elem :=
  .mk "html" "" [] "" (listToElemList [dateButton, demoCardA, demoCardB]) .noElem

/-! ## General lemmas about the embedding -/



theorem head?_mem {α : Type} {l : List α} {a : α} (h : l.head? = some a) : a ∈ l := by
  cases l with
  | nil => simp at h
  | cons b t =>
    simp [List.head?] at h
    subst h
    exact List.mem_cons_self _ _

theorem qs_pred {card : Elem} {p : Elem → Bool} {x : Elem} (h : card.qs p = some x) :
    p x = true := by
  have hx : x ∈ (elemListF card.children).filter p := head?_mem h
  exact (List.mem_filter.mp hx).2

theorem listContains_iff (n h : List Char) : listContains n h = true ↔ n <:+: h := by
  induction h with
  | nil =>
    simp [listContains, List.isPrefixOf_iff_prefix, List.prefix_nil, List.infix_nil]
  | cons c rest ih =>
    simp [listContains, List.isPrefixOf_iff_prefix, ih, List.infix_cons_iff]

theorem strContains_iff (hay needle : String) :
    strContains hay needle = true ↔ needle.data <:+: hay.data :=
  listContains_iff _ _

theorem countMatchingChars_eq (a b : List Char) :
    countMatchingChars a b = (a.zip b).countP (fun p => p.1 == p.2) := by
  induction a generalizing b with
  | nil => cases b <;> simp [countMatchingChars]
  | cons x xs ih =>
    cases b with
    | nil => simp [countMatchingChars]
    | cons y ys =>
      simp only [countMatchingChars, List.zip_cons_cons, List.countP_cons, ih]
      by_cases hxy : (x == y) = true <;> simp [hxy] <;> omega

theorem findListingCardsLoop_all_empty (doc : Elem) (sels : List (Elem → Bool))
    (hall : ∀ sel ∈ sels, docQsa doc sel = []) :
    findListingCardsLoop doc sels = [] := by
  induction sels with
  | nil => rfl
  | cons s rest ih =>
    have hs : docQsa doc s = [] := hall s (List.mem_cons_self _ _)
    simp only [findListingCardsLoop, hs]
    simpa using ih (fun sel hm => hall sel (List.mem_cons_of_mem _ hm))

theorem findListingCardsLoop_first (doc : Elem) (sels : List (Elem → Bool)) :
    ∀ (i : Nat) (hi : i < sels.length),
      (∀ j (hj : j < i), docQsa doc (sels.get ⟨j, Nat.lt_trans hj hi⟩) = []) →
      docQsa doc (sels.get ⟨i, hi⟩) ≠ [] →
      findListingCardsLoop doc sels = docQsa doc (sels.get ⟨i, hi⟩) := by
  induction sels with
  | nil => intro i hi; simp at hi
  | cons s rest ih =>
    intro i hi hprev hne
    cases i with
    | zero =>
      have hpos : (docQsa doc s).length > 0 := by
        cases hq : docQsa doc s with
        | nil => exact absurd hq hne
        | cons a t => simp
      simp only [findListingCardsLoop, if_pos hpos]
      rfl
    | succ k =>
      have h0 : docQsa doc s = [] := hprev 0 (Nat.succ_pos k)
      simp only [findListingCardsLoop, h0, List.length_nil, gt_iff_lt, Nat.lt_irrefl, if_false]
      exact ih k (Nat.lt_of_succ_lt_succ hi)
        (fun j hj => hprev (j + 1) (Nat.succ_lt_succ hj)) hne



theorem head?_dropWhile_not {α : Type} (p : α → Bool) (l : List α) :
    ∀ d, (l.dropWhile p).head? = some d → p d = false := by
  induction l with
  | nil => intro d h; simp at h
  | cons a t ih =>
    intro d h
    rw [List.dropWhile_cons] at h
    by_cases hpa : p a = true
    · rw [if_pos hpa] at h
      exact ih d h
    · rw [if_neg hpa] at h
      simp [List.head?] at h
      subst h
      exact (Bool.not_eq_true _).mp hpa

theorem roomsIdMatch_sound : ∀ {s ds : List Char}, roomsIdMatch s = some ds →
    ds ≠ [] ∧ ds.all Char.isDigit = true ∧
    ∃ pre rest, s = pre ++ "/rooms/".data ++ ds ++ rest ∧
      (∀ d, rest.head? = some d → d.isDigit = false) := by
  intro s
  induction s with
  | nil => intro ds h; simp [roomsIdMatch] at h
  | cons c cs ih =>
    intro ds h
    rw [roomsIdMatch] at h
    by_cases hp : ("/rooms/".data).isPrefixOf (c :: cs) = true
    · rw [if_pos hp] at h
      by_cases hemp : (((c :: cs).drop 7).takeWhile Char.isDigit).isEmpty = true
      · rw [if_pos hemp] at h
        obtain ⟨hne, hall, pre, rest, hdecomp, hmax⟩ := ih h
        exact ⟨hne, hall, c :: pre, rest, by simp [hdecomp], hmax⟩
      · rw [if_neg hemp] at h
        have hds : ds = ((c :: cs).drop 7).takeWhile Char.isDigit := by
          simpa using h.symm
        subst hds
        refine ⟨by simpa [List.isEmpty_iff] using hemp, List.all_takeWhile, [], List.dropWhile Char.isDigit ((c :: cs).drop 7), ?_, ?_⟩
        · obtain ⟨t, ht⟩ := (List.isPrefixOf_iff_prefix.mp hp)
          have h7 : ("/rooms/".data).length = 7 := by decide
          have hdrop : (c :: cs).drop 7 = t := by
            rw [← ht, ← h7, List.drop_left]
          rw [hdrop]
          simpa [List.takeWhile_append_dropWhile, List.append_assoc] using ht.symm
        · exact head?_dropWhile_not _ _
    · rw [if_neg hp] at h
      obtain ⟨hne, hall, pre, rest, hdecomp, hmax⟩ := ih h
      exact ⟨hne, hall, c :: pre, rest, by simp [hdecomp], hmax⟩



theorem roomsIdMatch_complete : ∀ {s : List Char}, roomsIdMatch s = none →
    ∀ pre d rest, d.isDigit = true → s ≠ pre ++ "/rooms/".data ++ d :: rest := by
  intro s
  induction s with
  | nil =>
    intro _ pre d rest _ habs
    have : ([] : List Char).length = (pre ++ "/rooms/".data ++ d :: rest).length :=
      congrArg List.length habs
    simp at this
    omega
  | cons c cs ih =>
    intro h pre d rest hd habs
    rw [roomsIdMatch] at h
    by_cases hp : ("/rooms/".data).isPrefixOf (c :: cs) = true
    · rw [if_pos hp] at h
      by_cases hemp : (((c :: cs).drop 7).takeWhile Char.isDigit).isEmpty = true
      · rw [if_pos hemp] at h
        cases pre with
        | nil =>
          have hdrop : (c :: cs).drop 7 = d :: rest := by
            rw [habs]
            simp only [List.nil_append]
            have h7 : ("/rooms/".data).length = 7 := by decide
            rw [← h7, List.drop_left]
          rw [hdrop, List.takeWhile_cons, if_pos hd] at hemp
          simp at hemp
        | cons x pre2 =>
          have hcs : cs = pre2 ++ "/rooms/".data ++ d :: rest := by
            have := habs
            simp only [List.cons_append] at this
            exact (List.cons.injEq _ _ _ _).mp this |>.2
          exact ih h pre2 d rest hd hcs
      · rw [if_neg hemp] at h
        exact Option.noConfusion h
    · rw [if_neg hp] at h
      cases pre with
      | nil =>
        have : ("/rooms/".data).isPrefixOf (c :: cs) = true := by
          rw [habs]
          simp only [List.nil_append]
          exact List.isPrefixOf_iff_prefix.mpr (List.prefix_append _ _)
        exact hp this
      | cons x pre2 =>
        have hcs : cs = pre2 ++ "/rooms/".data ++ d :: rest := by
          have := habs
          simp only [List.cons_append] at this
          exact (List.cons.injEq _ _ _ _).mp this |>.2
        exact ih h pre2 d rest hd hcs

/-! ## Claim theorems -/


/-- C2: the Card Locator tries its fixed, ordered selector list in order
and returns the elements matched by the first selector that matches at
least one element; if every selector matches nothing it returns the empty
sequence (and, being a total function, raises no error). -/
theorem C2_card_locator_first_selector (doc : Elem) :
    ((∀ sel ∈ cardSelectors, docQsa doc sel = []) → findListingCards doc = []) ∧
    (∀ (i : Nat) (hi : i < cardSelectors.length),
      (∀ j (hj : j < i), docQsa doc (cardSelectors.get ⟨j, Nat.lt_trans hj hi⟩) = []) →
      docQsa doc (cardSelectors.get ⟨i, hi⟩) ≠ [] →
      findListingCards doc = docQsa doc (cardSelectors.get ⟨i, hi⟩)) := by
  constructor
  · intro hall
    exact findListingCardsLoop_all_empty doc cardSelectors hall
  · intro i hi hprev hne
    exact findListingCardsLoop_first doc cardSelectors i hi hprev hne

/-- Witness for C2: on `demoDoc2` the primary selector matches nothing,
the second selector matches exactly `demoCard2`, and the locator returns
the second selector's matches. -/
theorem C2_card_locator_witness :
    docQsa demoDoc2 selCardContainer = [] ∧
    docQsa demoDoc2 selCyGroup = [demoCard2] ∧
    findListingCards demoDoc2 = docQsa demoDoc2 selCyGroup := by
  refine ⟨rfl, rfl, ?_⟩
  exact (C2_card_locator_first_selector demoDoc2).2 1 (by decide)
    (fun j hj => by
      cases j with
      | zero => rfl
      | succ n => omega)
    (by
      rw [show docQsa demoDoc2 (cardSelectors.get ⟨1, by decide⟩) = [demoCard2] from rfl]
      exact List.cons_ne_nil _ _)

/-- C3: the Similarity Matcher returns true when either string contains
the other; otherwise it returns false when the length difference exceeds
3; otherwise it returns true iff the count of position-aligned equal
characters (over the shorter length) divided by the longer length is at
least 0.8 (exactly: `5 * matches >= 4 * maxLen`). -/
theorem C3_similarity_contract (a b : String) :
    ((b.data <:+: a.data ∨ a.data <:+: b.data) → areStringSimilar a b = true) ∧
    (¬(b.data <:+: a.data ∨ a.data <:+: b.data) →
      absDiff (jsLength a) (jsLength b) > 3 → areStringSimilar a b = false) ∧
    (¬(b.data <:+: a.data ∨ a.data <:+: b.data) →
      absDiff (jsLength a) (jsLength b) ≤ 3 →
      (areStringSimilar a b = true ↔
        4 * max (jsLength a) (jsLength b) ≤
          5 * (a.data.zip b.data).countP (fun p => p.1 == p.2))) := by
  have hc : (strContains a b || strContains b a) = true ↔
      (b.data <:+: a.data ∨ a.data <:+: b.data) := by
    simp [Bool.or_eq_true, strContains_iff]
  refine ⟨?_, ?_, ?_⟩
  · intro h
    unfold areStringSimilar
    rw [if_pos (hc.mpr h)]
  · intro h hgt
    unfold areStringSimilar
    rw [if_neg (fun hx => h (hc.mp hx)), if_pos hgt]
  · intro h hle
    unfold areStringSimilar
    rw [if_neg (fun hx => h (hc.mp hx)), if_neg (by omega : ¬ absDiff (jsLength a) (jsLength b) > 3)]
    rw [countMatchingChars_eq]
    exact decide_eq_true_iff

/-- Witness for C3: `"abc"`/`"xyz"` fall through to the character-count
branch and are not similar; `"12 beds"`/`"12 beds"` hit the containment
rule and are similar. -/
theorem C3_similarity_witness :
    ¬("xyz".data <:+: "abc".data ∨ "abc".data <:+: "xyz".data) ∧
    areStringSimilar "abc" "xyz" = false ∧
    areStringSimilar "12 beds" "12 beds" = true := by
  have hnc : ¬("xyz".data <:+: "abc".data ∨ "abc".data <:+: "xyz".data) := by
    intro hx
    cases hx with
    | inl hx => exact absurd ((strContains_iff "abc" "xyz").mpr hx) (by decide)
    | inr hx => exact absurd ((strContains_iff "xyz" "abc").mpr hx) (by decide)
  refine ⟨hnc, ?_, ?_⟩
  · have h := (C3_similarity_contract "abc" "xyz").2.2 hnc (by decide)
    cases hb : areStringSimilar "abc" "xyz" with
    | false => rfl
    | true => exact absurd (h.mp hb) (by decide)
  · exact (C3_similarity_contract "12 beds" "12 beds").1 (Or.inl (List.infix_refl _))

/-- C4 counterexample: on the spec's example pair `("ab", "abcdefg")` the
Similarity Matcher does not return false — `"abcdefg"` contains `"ab"`,
so the containment rule fires before the length-difference check. -/
theorem C4_counterexample : areStringSimilar "ab" "abcdefg" ≠ false := by decide

/-- C4 amended: `similar("ab", "abcdefg")` returns true, because the
containment rule (`"abcdefg"` contains `"ab"`) is checked before the
length-difference rule, even though the length difference exceeds 3. -/
theorem C4_containment_overrides_length :
    areStringSimilar "ab" "abcdefg" = true ∧
    "ab".data <:+: "abcdefg".data ∧
    absDiff (jsLength "ab") (jsLength "abcdefg") > 3 := by
  refine ⟨by decide, ?_, by decide⟩
  exact (strContains_iff "abcdefg" "ab").mp (by decide)



/-- C5 counterexample: the heuristic trims the two halves before comparing
(and returns the trimmed first half), which the claim omits.  On the
even-length text `"a  a"` the untrimmed halves `"a "` and `" a"` are
neither identical nor similar — so by the claim the full text must be
kept — yet the code returns `"a"`. -/
theorem C5_counterexample :
    jsLength "a  a" % 2 = 0 ∧
    String.mk ("a  a".data.take 2) ≠ String.mk ("a  a".data.drop 2) ∧
    areStringSimilar (String.mk ("a  a".data.take 2)) (String.mk ("a  a".data.drop 2)) = false ∧
    dedupeBedText "a  a" = "a" ∧
    dedupeBedText "a  a" ≠ "a  a" := by
  refine ⟨by decide, by decide, by decide, by decide, by decide⟩

/-- C5 amended: on even-length text the heuristic splits in the middle and
compares the TRIMMED halves; when they are identical or similar it keeps
the trimmed first half, otherwise the full text; odd-length text is never
split.  `extractBedInfo` feeds the trimmed third non-hidden child text to
the heuristic.  The spec's three examples hold as stated. -/
theorem C5_bed_dedupe_amended (t : String) :
    (jsLength t % 2 ≠ 0 → dedupeBedText t = t) ∧
    (jsLength t % 2 = 0 →
      ((jsTrim (String.mk (t.data.take (jsLength t / 2))) =
          jsTrim (String.mk (t.data.drop (jsLength t / 2))) ∨
        areStringSimilar (jsTrim (String.mk (t.data.take (jsLength t / 2))))
          (jsTrim (String.mk (t.data.drop (jsLength t / 2)))) = true) →
        dedupeBedText t = jsTrim (String.mk (t.data.take (jsLength t / 2)))) ∧
      (¬(jsTrim (String.mk (t.data.take (jsLength t / 2))) =
          jsTrim (String.mk (t.data.drop (jsLength t / 2))) ∨
        areStringSimilar (jsTrim (String.mk (t.data.take (jsLength t / 2))))
          (jsTrim (String.mk (t.data.drop (jsLength t / 2)))) = true) →
        dedupeBedText t = t)) ∧
    (∀ card det, Elem.qs card selDetails = some det →
      ∀ b bs, (det.children.toList.filter selBedChild).drop 2 = b :: bs →
        extractBedInfo card = dedupeBedText (jsTrim b.textContent)) ∧
    (dedupeBedText "2 beds2 beds" = "2 beds" ∧
      dedupeBedText "3 bedrooms" = "3 bedrooms" ∧
      dedupeBedText "1 bed2 baths" = "1 bed2 baths") := by
  refine ⟨?_, ?_, ?_, by decide, by decide, by decide⟩
  · intro h
    have hcond : (jsLength t % 2 == 0) = false := by
      simpa using h
    simp only [dedupeBedText, hcond, Bool.false_eq_true, if_false]
  · intro h0
    have hcond : (jsLength t % 2 == 0) = true := by simpa using h0
    constructor
    · intro hcase
      have hb : (jsTrim (String.mk (t.data.take (jsLength t / 2))) ==
          jsTrim (String.mk (t.data.drop (jsLength t / 2))) ||
          areStringSimilar (jsTrim (String.mk (t.data.take (jsLength t / 2))))
            (jsTrim (String.mk (t.data.drop (jsLength t / 2))))) = true := by
        rcases hcase with hcase | hcase
        · simp [hcase]
        · simp [hcase]
      simp only [dedupeBedText, hcond, if_true, hb]
    · intro hcase
      rw [not_or] at hcase
      have hb : (jsTrim (String.mk (t.data.take (jsLength t / 2))) ==
          jsTrim (String.mk (t.data.drop (jsLength t / 2))) ||
          areStringSimilar (jsTrim (String.mk (t.data.take (jsLength t / 2))))
            (jsTrim (String.mk (t.data.drop (jsLength t / 2))))) = false := by
        rw [Bool.or_eq_false_iff]
        constructor
        · exact beq_false_of_ne hcase.1
        · simpa using hcase.2
      simp only [dedupeBedText, hcond, if_true, hb, Bool.false_eq_true, if_false]
  · intro card det hdet b bs hdrop
    simp only [extractBedInfo, hdet, hdrop]

/-- Witness for C5: the odd-length branch at `"2 beds 2 beds"` (length
13): the heuristic never splits it. -/
theorem C5_bed_dedupe_witness :
    jsLength "2 beds 2 beds" % 2 ≠ 0 ∧
    dedupeBedText "2 beds 2 beds" = "2 beds 2 beds" := by
  refine ⟨by decide, ?_⟩
  exact (C5_bed_dedupe_amended "2 beds 2 beds").1 (by decide)

/-- C6: whenever the Card Locator finds zero cards, the run returns the
failure result: `success = false`, no data, and the user-facing
"No listing cards found" message; nothing is thrown. -/
theorem C6_zero_cards_failure (doc : Elem) (wishlistName : String)
    (h : findListingCards doc = []) :
    extractAndSendListingData doc wishlistName = handleNoListingsFound ∧
    (extractAndSendListingData doc wishlistName).success = false ∧
    (extractAndSendListingData doc wishlistName).data = none ∧
    (extractAndSendListingData doc wishlistName).error =
      some "No listing cards found. Please refresh the page and try again." := by
  have he : extractAndSendListingData doc wishlistName = handleNoListingsFound := by
    simp only [extractAndSendListingData, h]
    rfl
  rw [he]
  exact ⟨rfl, rfl, rfl, rfl⟩

/-- Witness for C6 on a concrete empty page. -/
theorem C6_zero_cards_witness :
    findListingCards emptyDoc = [] ∧
    (extractAndSendListingData emptyDoc "Airbnb Wishlist").success = false ∧
    (extractAndSendListingData emptyDoc "Airbnb Wishlist").data = none ∧
    (extractAndSendListingData emptyDoc "Airbnb Wishlist").error =
      some "No listing cards found. Please refresh the page and try again." := by
  have hc := C6_zero_cards_failure emptyDoc "Airbnb Wishlist" rfl
  exact ⟨rfl, hc.2.1, hc.2.2.1, hc.2.2.2⟩



/-- C7 counterexample: the price extractor strips only the labels
`Gesamtpreis:` and `Insgesamt` — `Total:` is NOT stripped (element text
`"Total: €540"` comes back unchanged); and its currency fallback scans
only `div`/`span` descendants — a card whose only currency-bearing
descendant is an anchor yields `""`, not that anchor's text. -/
theorem C7_counterexample :
    Elem.qs totalCard selPrice = some totalEl ∧
    jsTrim totalEl.textContent = "Total: €540" ∧
    extractPrice totalCard = "Total: €540" ∧
    extractPrice totalCard ≠ "€540" ∧
    Elem.qs anchorCard selPrice = none ∧
    ((elemListF anchorCard.children).filter
        (fun e => strContains e.textContent "€" || strContains e.textContent "$")).head? =
      some anchorEl ∧
    jsTrim anchorEl.textContent = "€50 per night" ∧
    extractPrice anchorCard = "" := by
  refine ⟨rfl, by decide, by decide, by decide, rfl, rfl, by decide, by decide⟩

/-- C7 amended: when the class-or-attribute price heuristic matches, the
extractor returns the element's trimmed text with the known leading label
regexes `^Gesamtpreis:\s*` and then `^Insgesamt\s*` stripped (`Total:` is
not among the stripped labels); otherwise it returns the full trimmed
text of the first `div`/`span` descendant with non-empty text containing
`€` or `$`; otherwise the empty string. -/
theorem C7_price_extraction_amended (card : Elem) :
    (∀ el, Elem.qs card selPrice = some el →
      extractPrice card =
        stripLabel "Insgesamt" (stripLabel "Gesamtpreis:" (jsTrim el.textContent))) ∧
    (Elem.qs card selPrice = none →
      ∀ el, (card.qsa selDivSpan).find?
          (fun e => e.textContent != "" &&
            (strContains e.textContent "€" || strContains e.textContent "$")) = some el →
        extractPrice card = jsTrim el.textContent) ∧
    (Elem.qs card selPrice = none →
      (card.qsa selDivSpan).find?
          (fun e => e.textContent != "" &&
            (strContains e.textContent "€" || strContains e.textContent "$")) = none →
      extractPrice card = "") := by
  refine ⟨?_, ?_, ?_⟩
  · intro el hel
    simp only [extractPrice, hel]
  · intro hnone el hfind
    simp only [extractPrice, hnone, hfind]
  · intro hnone hfind
    simp only [extractPrice, hnone, hfind]

/-- Witness for C7: the spec's own example — price element text
`"Gesamtpreis: €540"` yields `"€540"` — and the empty fallback. -/
theorem C7_price_extraction_witness :
    Elem.qs gesamtCard selPrice = some gesamtEl ∧
    extractPrice gesamtCard = "€540" ∧
    extractPrice anchorCard = "" := by
  refine ⟨rfl, ?_, ?_⟩
  · have h := (C7_price_extraction_amended gesamtCard).1 gesamtEl rfl
    rw [h]
    decide
  · exact (C7_price_extraction_amended anchorCard).2.2 rfl rfl

/-- C8: from the first `/rooms/` anchor of a card, a href matching the
numeric-id regex produces the canonical fixed-base URL carrying exactly
the first maximal digit run after `/rooms/` (all query parameters gone);
a href without such a numeric segment produces base domain plus the path
up to the first `?`; a card without such an anchor produces `""`. -/
theorem C8_link_canonicalization (card : Elem) :
    (Elem.qs card selRoomsAnchor = none → extractLink card = "") ∧
    (∀ el href, Elem.qs card selRoomsAnchor = some el →
      el.getAttr "href" = some href → href ≠ "" →
      ((∀ ds, roomsIdMatch href.data = some ds →
        extractLink card = "https://www.airbnb.com/rooms/" ++ String.mk ds ∧
        ds ≠ [] ∧ ds.all Char.isDigit = true ∧
        (∃ pre rest, href.data = pre ++ "/rooms/".data ++ ds ++ rest ∧
          (∀ d, rest.head? = some d → d.isDigit = false))) ∧
      (roomsIdMatch href.data = none →
        extractLink card =
          "https://www.airbnb.com" ++ String.mk (href.data.takeWhile (fun ch => ch != '?')) ∧
        (∀ pre d rest, d.isDigit = true →
          href.data ≠ pre ++ "/rooms/".data ++ d :: rest)))) := by
  constructor
  · intro hnone
    simp only [extractLink, hnone]
  · intro el href hel hhref hne
    have hb : (href != "") = true := by simpa using hne
    constructor
    · intro ds hds
      refine ⟨?_, ?_⟩
      · simp only [extractLink, hel, hhref, hb, if_true, hds]
      · exact roomsIdMatch_sound hds
    · intro hnone
      refine ⟨?_, ?_⟩
      · simp only [extractLink, hel, hhref, hb, if_true, hnone]
      · exact fun pre d rest hd => roomsIdMatch_complete hnone pre d rest hd

/-- Witness for C8: the spec's example href
`"/rooms/12345678?source=wishlist"` canonicalizes to
`"https://www.airbnb.com/rooms/12345678"`. -/
theorem C8_link_canonicalization_witness :
    Elem.qs roomsCard selRoomsAnchor = some roomsAnchor ∧
    roomsAnchor.getAttr "href" = some "/rooms/12345678?source=wishlist" ∧
    extractLink roomsCard = "https://www.airbnb.com/rooms/12345678" := by
  refine ⟨rfl, rfl, ?_⟩
  have h := (((C8_link_canonicalization roomsCard).2 roomsAnchor
      "/rooms/12345678?source=wishlist" rfl rfl (by decide)).1 "12345678".data (by decide)).1
  rw [h]
  decide



/-- C9: the date extractor ignores its card argument and queries the
whole document, so any two cards of one page yield the same date string,
and every record of a single successful run carries the same date. -/
theorem C9_date_document_global (doc : Elem) :
    (∀ c1 c2, extractDate doc c1 = extractDate doc c2) ∧
    (∀ wishlistName rs, (extractAndSendListingData doc wishlistName).data = some rs →
      ∀ r1 r2, r1 ∈ rs → r2 ∈ rs → r1.date = r2.date) := by
  constructor
  · intro c1 c2
    rfl
  · intro wishlistName rs hdata r1 r2 h1 h2
    by_cases hz : ((findListingCards doc).length == 0) = true
    · have : (extractAndSendListingData doc wishlistName).data = none := by
        simp only [extractAndSendListingData, hz]
        rfl
      rw [this] at hdata
      exact Option.noConfusion hdata
    · have hz2 : ((findListingCards doc).length == 0) = false := by
        simpa using hz
      have hrs : rs = (findListingCards doc).map (extractListingData doc) := by
        have : (extractAndSendListingData doc wishlistName).data =
            some ((findListingCards doc).map (extractListingData doc)) := by
          simp only [extractAndSendListingData, hz2]
          rfl
        rw [this] at hdata
        exact ((Option.some.injEq _ _).mp hdata).symm
      subst hrs
      obtain ⟨ca, _, hca⟩ := List.mem_map.mp h1
      obtain ⟨cb, _, hcb⟩ := List.mem_map.mp h2
      rw [← hca, ← hcb]
      rfl

/-- Witness for C9 on a page with one date button and two distinct cards:
the two records carry the same date string. -/
theorem C9_date_witness :
    (extractAndSendListingData dateDoc "W").data =
      some [extractListingData dateDoc demoCardA, extractListingData dateDoc demoCardB] ∧
    (extractListingData dateDoc demoCardA).date = (extractListingData dateDoc demoCardB).date ∧
    (extractListingData dateDoc demoCardA).date = "Oct 12 - 19" := by
  refine ⟨rfl, ?_, by decide⟩
  exact (C9_date_document_global dateDoc).2 "W" _ rfl _ _
    (List.mem_cons_self _ _) (List.mem_cons_of_mem _ (List.mem_cons_self _ _))

/-- C10: the comment extractor computes a room id from the card's link
anchor but never uses it — the result depends only on the card's
`nextElementSibling` (comment-wrapper class plus nested comment text with
the edit label stripped), so two cards with the same following sibling
get the same comment regardless of their anchors. -/
theorem C10_comment_ignores_room_id (c1 c2 : Elem) (h : c1.nextSibling = c2.nextSibling) :
    extractComment c1 = extractComment c2 ∧
    (∀ c : Elem, extractComment c = commentFromSibling c.nextSibling) := by
  have hgen : ∀ c : Elem, extractComment c = commentFromSibling c.nextSibling := by
    intro c
    unfold extractComment
    split
    next linkElement hq =>
      split
      next href hga => rfl
      next hga =>
        exfalso
        have hp := qs_pred hq
        unfold selRoomsAnchor at hp
        rw [Bool.and_eq_true] at hp
        have h2 := hp.2
        simp [Elem.attrContainsVal, hga] at h2
    next hq => rfl
  exact ⟨by rw [hgen c1, hgen c2, h], hgen⟩

/-- Witness for C10: `cardX` and `cardY` differ only in their link
anchors (rooms 111 vs 222, so their extracted links differ) yet share
their following sibling and get the identical comment `"Great view"`
(with the `Bearbeiten` edit label stripped). -/
theorem C10_comment_witness :
    cardX.nextSibling = cardY.nextSibling ∧
    extractLink cardX ≠ extractLink cardY ∧
    extractComment cardX = extractComment cardY ∧
    extractComment cardX = "Great view" := by
  refine ⟨rfl, by decide, (C10_comment_ignores_room_id cardX cardY rfl).1, by decide⟩

/-- C1: over arbitrary (even always-faulting) field-extractor bodies, the
assembler produces exactly one record per located card, in card order;
each record's fields are the seven independently try/catch-wrapped body
results (a fault becomes `""` for that field only); and the concrete
pipeline is exactly this assembler at the concrete extractor bodies. -/
theorem C1_fault_isolated_assembly (fs : FieldExtractors) (doc : Elem)
    (wishlistName : String) (h : findListingCards doc ≠ []) :
    (extractAndSendListingDataWith fs doc wishlistName).success = true ∧
    (extractAndSendListingDataWith fs doc wishlistName).data =
      some ((findListingCards doc).map (extractListingDataWith fs)) ∧
    ((findListingCards doc).map (extractListingDataWith fs)).length =
      (findListingCards doc).length ∧
    (∀ (i : Nat) (hi : i < (findListingCards doc).length),
      ((findListingCards doc).map (extractListingDataWith fs)).get
          ⟨i, by rw [List.length_map]; exact hi⟩ =
        extractListingDataWith fs ((findListingCards doc).get ⟨i, hi⟩)) ∧
    (∀ card, (extractListingDataWith fs card).propertyName = jsTry (fs.name card) ∧
      (extractListingDataWith fs card).rating = jsTry (fs.rating card) ∧
      (extractListingDataWith fs card).date = jsTry (fs.date card) ∧
      (extractListingDataWith fs card).beds = jsTry (fs.beds card) ∧
      (extractListingDataWith fs card).totalPrice = jsTry (fs.price card) ∧
      (extractListingDataWith fs card).link = jsTry (fs.link card) ∧
      (extractListingDataWith fs card).comment = jsTry (fs.comment card)) ∧
    (∀ card, extractListingData doc card = extractListingDataWith (okExtractors doc) card) := by
  have hnz : ((findListingCards doc).length == 0) = false := by
    cases hq : findListingCards doc with
    | nil => exact absurd hq h
    | cons a t => rfl
  refine ⟨?_, ?_, List.length_map _ _, ?_, ?_, ?_⟩
  · simp only [extractAndSendListingDataWith, hnz]
    rfl
  · simp only [extractAndSendListingDataWith, hnz]
    rfl
  · intro i hi
    simp [List.get_eq_getElem, List.getElem_map]
  · intro card
    exact ⟨rfl, rfl, rfl, rfl, rfl, rfl, rfl⟩
  · intro card
    rfl

/-- Witness for C1: on `dateDoc` (two cards) with extractor bodies that
all throw, the assembler still returns exactly two records, in order,
every field defaulted to `""`. -/
theorem C1_fault_isolation_witness :
    findListingCards dateDoc ≠ [] ∧
    (extractAndSendListingDataWith failingExtractors dateDoc "W").data =
      some ((findListingCards dateDoc).map (extractListingDataWith failingExtractors)) ∧
    (findListingCards dateDoc).map (extractListingDataWith failingExtractors) =
      [⟨"", "", "", "", "", "", ""⟩, ⟨"", "", "", "", "", "", ""⟩] := by
  have hne : findListingCards dateDoc ≠ [] := by
    rw [show findListingCards dateDoc = [demoCardA, demoCardB] from rfl]
    exact List.cons_ne_nil _ _
  exact ⟨hne, (C1_fault_isolated_assembly failingExtractors dateDoc "W" hne).2.1, rfl⟩

end AWL
